import Mathlib

/- Shallow embedding of the quantity/dimension core of qsim-core:
   units/units.go (Dimension, Value) and math/vector/vector3.go (Vector3).

   Modelling choices:
   - Go float64 magnitudes are modelled as exact rationals; math.Sqrt is
     modelled by ratSqrt, the exact square root on perfect squares (and 0
     elsewhere).  No theorem below depends on ratSqrt's value off perfect
     squares, and every concrete input used is a perfect square, where
     IEEE-754 sqrt is exact.
   - Go int8 exponent arithmetic wraps two's-complement; wrap8 applies that
     reduction wherever the Go source performs int8 addition, subtraction
     or multiplication.
   - Go's % and / on integers truncate toward zero: Int.tmod and Int.tdiv.
   - Go's (T, error) returns are modelled as Except String T; the Go
     pattern of discarding an error with a blank identifier is orZero. -/

namespace QsimCore

/-- Two's-complement wrapping of an integer into the int8 range [-128, 127]:
    the result of Go int8 addition, subtraction and multiplication. -/
def wrap8 (x : Int) : Int := (x + 128) % 256 - 128

/-- Model of math.Sqrt on exact rationals: the exact nonnegative square root
    when the argument is a perfect square (numerator and denominator both
    perfect squares), 0 otherwise. -/
def ratSqrt (q : ℚ) : ℚ :=
  let n := Nat.sqrt q.num.toNat
  let d := Nat.sqrt q.den
  if 0 ≤ q ∧ (n : Int) * n = q.num ∧ (d : Nat) * d = q.den then (n : ℚ) / (d : ℚ) else 0

/-- Dimension (units.go 31-39): the dimensional formula of a physical
    quantity, one Go int8 exponent per SI base dimension. -/
structure Dimension where
  L : Int
  M : Int
  T : Int
  I : Int
  Θ : Int
  N : Int
  J : Int
deriving DecidableEq

/-- The all-zero (dimensionless) Dimension, Go's `Dimension{}`. -/
def dimZero : Dimension := ⟨0, 0, 0, 0, 0, 0, 0⟩

/-- Go's guarded append statement `if cond { parts = append(parts, tok) }`
    (units.go 254-274), one call per base dimension. -/
def appendIf (cond : Prop) [Decidable cond] (tok : String)
    (parts : List String) : List String :=
  if cond then parts ++ [tok] else parts

/-- Embedding of Dimension.String (units.go 248-285): "[1]" for the all-zero
    Dimension, otherwise the non-zero exponents as "SYMBOL^exp" tokens
    accumulated in source order L M T I Θ N J and joined by the indexed
    loop that inserts a space before every token but the first. -/
def Dimension.render (d : Dimension) : String :=
  if d = dimZero then "[1]"
  else
    let parts : List String := []
    let parts := appendIf (d.L ≠ 0) ("L^" ++ toString d.L) parts
    let parts := appendIf (d.M ≠ 0) ("M^" ++ toString d.M) parts
    let parts := appendIf (d.T ≠ 0) ("T^" ++ toString d.T) parts
    let parts := appendIf (d.I ≠ 0) ("I^" ++ toString d.I) parts
    let parts := appendIf (d.Θ ≠ 0) ("Θ^" ++ toString d.Θ) parts
    let parts := appendIf (d.N ≠ 0) ("N^" ++ toString d.N) parts
    let parts := appendIf (d.J ≠ 0) ("J^" ++ toString d.J) parts
    (parts.foldl
      (fun acc p => ((if acc.2 > 0 then acc.1 ++ " " else acc.1) ++ p, acc.2 + 1))
      ("[", (0 : Nat))).1 ++ "]"

/-- Value (units.go 47-50): a magnitude paired with its Dimension. -/
structure Value where
  value : ℚ
  dim   : Dimension
deriving DecidableEq

/-- NewValue (units.go 54-56). -/
def NewValue (value : ℚ) (dim : Dimension) : Value := ⟨value, dim⟩

/-- Go's zero value `Value{}`. -/
def zeroValue : Value := ⟨0, dimZero⟩

/-- Value.Add (units.go 96-102): errors unless the dimensions are equal. -/
def Value.Add (v other : Value) : Except String Value :=
  if v.dim ≠ other.dim then
    .error ("cannot add quantities with different dimensions: " ++
      v.dim.render ++ " + " ++ other.dim.render)
  else
    .ok ⟨v.value + other.value, v.dim⟩

/-- Value.Subtract (units.go 112-118). -/
def Value.Subtract (v other : Value) : Except String Value :=
  if v.dim ≠ other.dim then
    .error ("cannot subtract quantities with different dimensions: " ++
      v.dim.render ++ " - " ++ other.dim.render)
  else
    .ok ⟨v.value - other.value, v.dim⟩

/-- Value.Multiply (units.go 131-144): magnitudes multiplied, exponents
    added by Go int8 addition (which wraps). -/
def Value.Multiply (v other : Value) : Value :=
  ⟨v.value * other.value,
   ⟨wrap8 (v.dim.L + other.dim.L), wrap8 (v.dim.M + other.dim.M),
    wrap8 (v.dim.T + other.dim.T), wrap8 (v.dim.I + other.dim.I),
    wrap8 (v.dim.Θ + other.dim.Θ), wrap8 (v.dim.N + other.dim.N),
    wrap8 (v.dim.J + other.dim.J)⟩⟩

/-- Value.Divide (units.go 153-166): magnitudes divided, exponents
    subtracted by Go int8 subtraction (which wraps). -/
def Value.Divide (v other : Value) : Value :=
  ⟨v.value / other.value,
   ⟨wrap8 (v.dim.L - other.dim.L), wrap8 (v.dim.M - other.dim.M),
    wrap8 (v.dim.T - other.dim.T), wrap8 (v.dim.I - other.dim.I),
    wrap8 (v.dim.Θ - other.dim.Θ), wrap8 (v.dim.N - other.dim.N),
    wrap8 (v.dim.J - other.dim.J)⟩⟩

/-- Value.Scale (units.go 174-176). -/
def Value.Scale (v : Value) (scalar : ℚ) : Value := ⟨v.value * scalar, v.dim⟩

/-- Value.Sqrt (units.go 208-228): errors when any exponent is odd (Go
    `%2 != 0`, truncated remainder); otherwise halves every exponent by Go
    integer division and takes the square root of the magnitude. -/
def Value.Sqrt (v : Value) : Except String Value :=
  if v.dim.L.tmod 2 ≠ 0 ∨ v.dim.M.tmod 2 ≠ 0 ∨ v.dim.T.tmod 2 ≠ 0 ∨
     v.dim.I.tmod 2 ≠ 0 ∨ v.dim.Θ.tmod 2 ≠ 0 ∨ v.dim.N.tmod 2 ≠ 0 ∨
     v.dim.J.tmod 2 ≠ 0 then
    .error ("cannot take square root of quantity with odd dimension exponents: " ++
      v.dim.render)
  else
    .ok ⟨ratSqrt v.value,
         ⟨v.dim.L.tdiv 2, v.dim.M.tdiv 2, v.dim.T.tdiv 2, v.dim.I.tdiv 2,
          v.dim.Θ.tdiv 2, v.dim.N.tdiv 2, v.dim.J.tdiv 2⟩⟩

/-- Value.Abs (units.go 231-233). -/
def Value.Abs (v : Value) : Value := ⟨|v.value|, v.dim⟩

/-- Value.Negate (units.go 236-238). -/
def Value.Negate (v : Value) : Value := ⟨-v.value, v.dim⟩

/-- almostEqual (units.go 288-297). -/
def almostEqual (a b tolerance : ℚ) : Bool :=
  if a = b then true
  else
    let diff := |a - b|
    if a = 0 ∨ b = 0 ∨ diff < tolerance then decide (diff < tolerance)
    else decide (diff / (|a| + |b|) < tolerance)

/-- The literal 1e-14 used by Value.Equal (units.go 76). -/
def eqTolerance : ℚ := 1 / 10 ^ 14

/-- Value.Equal (units.go 75-77). -/
def Value.Equal (v other : Value) : Bool :=
  decide (v.dim = other.dim) && almostEqual v.value other.value eqTolerance

/-- Vector3 (vector3.go 12-14): three Values. -/
structure Vector3 where
  X : Value
  Y : Value
  Z : Value
deriving DecidableEq

/-- New (vector3.go 26-33): errors unless all three components carry the
    same Dimension. -/
def New (x y z : Value) : Except String Vector3 :=
  if x.dim ≠ y.dim ∨ x.dim ≠ z.dim then
    .error ("vector components must have same dimension: x=" ++ x.dim.render ++
      ", y=" ++ y.dim.render ++ ", z=" ++ z.dim.render)
  else .ok ⟨x, y, z⟩

/-- Zero (vector3.go 64-70). -/
def Zero (dim : Dimension) : Vector3 :=
  ⟨NewValue 0 dim, NewValue 0 dim, NewValue 0 dim⟩

/-- UnitX (vector3.go 73-79). -/
def UnitX (dim : Dimension) : Vector3 :=
  ⟨NewValue 1 dim, NewValue 0 dim, NewValue 0 dim⟩

/-- UnitY (vector3.go 82-88). -/
def UnitY (dim : Dimension) : Vector3 :=
  ⟨NewValue 0 dim, NewValue 1 dim, NewValue 0 dim⟩

/-- UnitZ (vector3.go 91-97), embedded exactly as written: although its
    documentation says "a unit vector in the Z direction", the body sets the
    Y component to 1 and the Z component to 0. -/
def UnitZ (dim : Dimension) : Vector3 :=
  ⟨NewValue 0 dim, NewValue 1 dim, NewValue 0 dim⟩

/-- Vector3.Add (vector3.go 116-130): componentwise, propagating the first
    error. -/
def Vector3.Add (v other : Vector3) : Except String Vector3 :=
  match v.X.Add other.X with
  | .error e => .error e
  | .ok x =>
    match v.Y.Add other.Y with
    | .error e => .error e
    | .ok y =>
      match v.Z.Add other.Z with
      | .error e => .error e
      | .ok z => .ok ⟨x, y, z⟩

/-- Vector3.Subtract (vector3.go 137-151). -/
def Vector3.Subtract (v other : Vector3) : Except String Vector3 :=
  match v.X.Subtract other.X with
  | .error e => .error e
  | .ok x =>
    match v.Y.Subtract other.Y with
    | .error e => .error e
    | .ok y =>
      match v.Z.Subtract other.Z with
      | .error e => .error e
      | .ok z => .ok ⟨x, y, z⟩

/-- Vector3.Scale (vector3.go 158-164). -/
def Vector3.Scale (v : Vector3) (scalar : ℚ) : Vector3 :=
  ⟨v.X.Scale scalar, v.Y.Scale scalar, v.Z.Scale scalar⟩

/-- Vector3.Negate (vector3.go 167-173). -/
def Vector3.Negate (v : Vector3) : Vector3 :=
  ⟨v.X.Negate, v.Y.Negate, v.Z.Negate⟩

/-- Go's discarded-error pattern `result, _ := e`: the Ok payload, or the
    zero `Value{}` when e is an error. -/
def orZero (e : Except String Value) : Value :=
  match e with
  | .ok v => v
  | .error _ => zeroValue

/-- Vector3.Dot (vector3.go 184-192): componentwise products chained through
    Value.Add with the error discarded, as in the source. -/
def Vector3.Dot (v other : Vector3) : Value :=
  let xx := v.X.Multiply other.X
  let yy := v.Y.Multiply other.Y
  let zz := v.Z.Multiply other.Z
  let result := orZero (xx.Add yy)
  orZero (result.Add zz)

/-- Vector3.Cross (vector3.go 207-215): determinant formula with each
    component subtraction's error discarded, as in the source. -/
def Vector3.Cross (v other : Vector3) : Vector3 :=
  let xVal := orZero ((v.Y.Multiply other.Z).Subtract (v.Z.Multiply other.Y))
  let yVal := orZero ((v.Z.Multiply other.X).Subtract (v.X.Multiply other.Z))
  let zVal := orZero ((v.X.Multiply other.Y).Subtract (v.Y.Multiply other.X))
  ⟨xVal, yVal, zVal⟩

/-- Vector3.MagnitudeSquared (vector3.go 224-226). -/
def Vector3.MagnitudeSquared (v : Vector3) : Value := v.Dot v

/-- Vector3.Magnitude (vector3.go 235-238). -/
def Vector3.Magnitude (v : Vector3) : Except String Value :=
  v.MagnitudeSquared.Sqrt

/-- Vector3.Normalize (vector3.go 246-262): propagates Magnitude's error,
    rejects a zero raw magnitude, else divides each component by the
    magnitude Value. -/
def Vector3.Normalize (v : Vector3) : Except String Vector3 :=
  match v.Magnitude with
  | .error e => .error e
  | .ok mag =>
    if mag.value = 0 then .error "cannot normalize zero vector"
    else .ok ⟨v.X.Divide mag, v.Y.Divide mag, v.Z.Divide mag⟩

/-- Vector3.ProjectOnto (vector3.go 273-290). -/
def Vector3.ProjectOnto (v other : Vector3) : Except String Vector3 :=
  let dotProduct := v.Dot other
  let otherMagSquared := other.MagnitudeSquared
  if otherMagSquared.value = 0 then .error "cannot project onto zero vector"
  else
    let scalar := dotProduct.Divide otherMagSquared
    .ok ⟨other.X.Multiply scalar, other.Y.Multiply scalar, other.Z.Multiply scalar⟩

/-- A Vector3 is well formed when its three components carry one identical
    Dimension (the check New performs). -/
def sharedDim (v : Vector3) : Prop :=
  v.X.dim = v.Y.dim ∧ v.X.dim = v.Z.dim

instance (v : Vector3) : Decidable (sharedDim v) := by
  unfold sharedDim; infer_instance

/-- Spec-side composition of dimensions: each exponent the plain integer sum
    of the corresponding operand exponents. -/
def composeDim (a b : Dimension) : Dimension :=
  ⟨a.L + b.L, a.M + b.M, a.T + b.T, a.I + b.I, a.Θ + b.Θ, a.N + b.N, a.J + b.J⟩

/-- Spec-side decomposition of dimensions: each exponent the plain integer
    difference of the corresponding operand exponents. -/
def decomposeDim (a b : Dimension) : Dimension :=
  ⟨a.L - b.L, a.M - b.M, a.T - b.T, a.I - b.I, a.Θ - b.Θ, a.N - b.N, a.J - b.J⟩

/-- All seven exponents lie in the int8 range [-128, 127]. -/
def Dimension.InRange8 (d : Dimension) : Prop :=
  (-128 ≤ d.L ∧ d.L ≤ 127) ∧ (-128 ≤ d.M ∧ d.M ≤ 127) ∧ (-128 ≤ d.T ∧ d.T ≤ 127) ∧
  (-128 ≤ d.I ∧ d.I ≤ 127) ∧ (-128 ≤ d.Θ ∧ d.Θ ≤ 127) ∧ (-128 ≤ d.N ∧ d.N ≤ 127) ∧
  (-128 ≤ d.J ∧ d.J ≤ 127)

instance (d : Dimension) : Decidable d.InRange8 := by
  unfold Dimension.InRange8; infer_instance

/-- All seven exponents lie in [-64, 63], so that doubling them stays inside
    the int8 range. -/
def Dimension.Halvable (d : Dimension) : Prop :=
  (-64 ≤ d.L ∧ d.L ≤ 63) ∧ (-64 ≤ d.M ∧ d.M ≤ 63) ∧ (-64 ≤ d.T ∧ d.T ≤ 63) ∧
  (-64 ≤ d.I ∧ d.I ≤ 63) ∧ (-64 ≤ d.Θ ∧ d.Θ ≤ 63) ∧ (-64 ≤ d.N ∧ d.N ≤ 63) ∧
  (-64 ≤ d.J ∧ d.J ≤ 63)

instance (d : Dimension) : Decidable d.Halvable := by
  unfold Dimension.Halvable; infer_instance

/-- Spec-side condition for Sqrt to fail: at least one of the seven
    exponents is odd. -/
def Dimension.hasOddExponent (d : Dimension) : Prop :=
  Odd d.L ∨ Odd d.M ∨ Odd d.T ∨ Odd d.I ∨ Odd d.Θ ∨ Odd d.N ∨ Odd d.J

instance (d : Dimension) : Decidable d.hasOddExponent := by
  unfold Dimension.hasOddExponent; infer_instance

/-- The equality predicate exactly as claim C4 words it: dimensions equal,
    and then magnitudes equal, or neither magnitude exactly zero with the
    relative error within tolerance, or some magnitude exactly zero with the
    absolute difference within tolerance. -/
def claimEqualPred (a b : Value) : Prop :=
  a.dim = b.dim ∧
    (a.value = b.value ∨
     (a.value ≠ 0 ∧ b.value ≠ 0 ∧
        |a.value - b.value| / (|a.value| + |b.value|) < eqTolerance) ∨
     ((a.value = 0 ∨ b.value = 0) ∧ |a.value - b.value| < eqTolerance))

instance (a b : Value) : Decidable (claimEqualPred a b) := by
  unfold claimEqualPred; infer_instance

/-- Spec-side rendering of a Dimension, following the spec's words: the
    non-zero exponents as "SYMBOL^exponent" tokens in the fixed order
    L M T I Θ N J. -/
def Dimension.specTokens (d : Dimension) : List String :=
  [("L", d.L), ("M", d.M), ("T", d.T), ("I", d.I),
   ("Θ", d.Θ), ("N", d.N), ("J", d.J)].filterMap
    (fun p => if p.2 ≠ 0 then some (p.1 ++ "^" ++ toString p.2) else none)

/-- Space-separated concatenation of a token list. -/
def sepSpace : List String → String
  | [] => ""
  | [p] => p
  | p :: q :: rest => p ++ " " ++ sepSpace (q :: rest)

/-- Spec-side rendering: non-zero exponent tokens, space-separated, enclosed
    in square brackets; the all-zero Dimension renders as "[1]". -/
def Dimension.renderSpec (d : Dimension) : String :=
  if d = dimZero then "[1]"
  else "[" ++ sepSpace d.specTokens ++ "]"

/-- Shared concrete vectors used by several witnesses. -/
def dimLen : Dimension := ⟨1, 0, 0, 0, 0, 0, 0⟩

def vec345 : Vector3 := ⟨⟨3, dimLen⟩, ⟨4, dimLen⟩, ⟨0, dimLen⟩⟩

def vec123 : Vector3 := ⟨⟨1, dimLen⟩, ⟨2, dimLen⟩, ⟨3, dimLen⟩⟩

lemma wrap8_eq {x : Int} (h1 : -128 ≤ x) (h2 : x ≤ 127) : wrap8 x = x := by
  unfold wrap8; omega

lemma not_odd_iff_tmod (x : Int) : ¬ Odd x ↔ x.tmod 2 = 0 := by
  rw [Int.not_odd_iff_even, ← Int.dvd_iff_tmod_eq_zero]
  exact ⟨Even.two_dvd, fun ⟨c, hc⟩ => ⟨c, by omega⟩⟩

lemma wrap8_double_tmod (x : Int) : (wrap8 (x + x)).tmod 2 = 0 := by
  rw [← Int.dvd_iff_tmod_eq_zero]
  unfold wrap8
  omega

lemma double_tdiv (x : Int) : (x + x).tdiv 2 = x := by
  rw [← two_mul]; exact Int.mul_tdiv_cancel_left x (by norm_num)

lemma tdiv_double {x : Int} (h : ¬ Odd x) : x.tdiv 2 + x.tdiv 2 = x := by
  rw [Int.not_odd_iff_even] at h
  have := Int.tdiv_mul_cancel h.two_dvd
  omega

/-- C1. For every pair of Values a and b, Value.Add and Value.Subtract return
    an error exactly when the Dimensions of a and b are not structurally
    equal; when the dimensions are equal, Add returns (a.value + b.value,
    a.dim) and Subtract returns (a.value - b.value, a.dim), with no error. -/
theorem claim_C1_add_subtract (a b : Value) :
    (a.dim = b.dim →
      Value.Add a b = .ok ⟨a.value + b.value, a.dim⟩ ∧
      Value.Subtract a b = .ok ⟨a.value - b.value, a.dim⟩) ∧
    (a.dim ≠ b.dim →
      (∃ e, Value.Add a b = .error e) ∧ (∃ e, Value.Subtract a b = .error e)) := by
  constructor
  · intro h
    constructor <;> simp [Value.Add, Value.Subtract, h]
  · intro h
    constructor <;> simp [Value.Add, Value.Subtract, h]

/-- Witness for C1 at concrete inputs: adding 5 m and 3 m succeeds with sum
    8 m, adding 5 m and a mass fails. -/
theorem claim_C1_witness :
    Value.Add ⟨5, ⟨1, 0, 0, 0, 0, 0, 0⟩⟩ ⟨3, ⟨1, 0, 0, 0, 0, 0, 0⟩⟩ =
      .ok ⟨5 + 3, ⟨1, 0, 0, 0, 0, 0, 0⟩⟩ ∧
    ∃ e, Value.Add ⟨5, ⟨1, 0, 0, 0, 0, 0, 0⟩⟩ ⟨3, ⟨0, 1, 0, 0, 0, 0, 0⟩⟩ = .error e :=
  ⟨((claim_C1_add_subtract ⟨5, ⟨1, 0, 0, 0, 0, 0, 0⟩⟩ ⟨3, ⟨1, 0, 0, 0, 0, 0, 0⟩⟩).1 rfl).1,
   ((claim_C1_add_subtract ⟨5, ⟨1, 0, 0, 0, 0, 0, 0⟩⟩ ⟨3, ⟨0, 1, 0, 0, 0, 0, 0⟩⟩).2
      (by decide)).1⟩

/-- C2 counterexample: at Dimension exponent L = 100 (within int8 range) the
    exponent of a product is the int8-wrapped value -56, not the plain sum
    200; a quotient of L = 100 by L = -100 likewise wraps to -56, not 200. -/
theorem claim_C2_counterexample :
    (Value.Multiply ⟨1, ⟨100, 0, 0, 0, 0, 0, 0⟩⟩ ⟨1, ⟨100, 0, 0, 0, 0, 0, 0⟩⟩).dim.L ≠
      (100 : Int) + 100 ∧
    (Value.Divide ⟨1, ⟨100, 0, 0, 0, 0, 0, 0⟩⟩ ⟨1, ⟨-100, 0, 0, 0, 0, 0, 0⟩⟩).dim.L ≠
      (100 : Int) - (-100) := by
  constructor <;> decide

/-- C2 as amended. Value.Multiply never fails and returns magnitude a.value *
    b.value with each exponent the int8-wrapped (two's-complement, modulo
    256 into [-128, 127]) sum of the corresponding exponents; Value.Divide
    likewise never fails (also at zero divisor magnitude) and returns
    magnitude a.value / b.value with each exponent the int8-wrapped
    difference.  Whenever the plain sums (differences) all fit in int8, the
    result Dimension is exactly the plain componentwise sum (difference). -/
theorem claim_C2_multiply_divide (a b : Value) :
    (Value.Multiply a b).value = a.value * b.value ∧
    (Value.Divide a b).value = a.value / b.value ∧
    (Value.Multiply a b).dim =
      ⟨wrap8 (a.dim.L + b.dim.L), wrap8 (a.dim.M + b.dim.M), wrap8 (a.dim.T + b.dim.T),
       wrap8 (a.dim.I + b.dim.I), wrap8 (a.dim.Θ + b.dim.Θ), wrap8 (a.dim.N + b.dim.N),
       wrap8 (a.dim.J + b.dim.J)⟩ ∧
    (Value.Divide a b).dim =
      ⟨wrap8 (a.dim.L - b.dim.L), wrap8 (a.dim.M - b.dim.M), wrap8 (a.dim.T - b.dim.T),
       wrap8 (a.dim.I - b.dim.I), wrap8 (a.dim.Θ - b.dim.Θ), wrap8 (a.dim.N - b.dim.N),
       wrap8 (a.dim.J - b.dim.J)⟩ ∧
    ((composeDim a.dim b.dim).InRange8 →
      (Value.Multiply a b).dim = composeDim a.dim b.dim) ∧
    ((decomposeDim a.dim b.dim).InRange8 →
      (Value.Divide a b).dim = decomposeDim a.dim b.dim) := by
  refine ⟨rfl, rfl, rfl, rfl, ?_, ?_⟩
  · rintro ⟨hL, hM, hT, hI, hΘ, hN, hJ⟩
    simp only [Value.Multiply, composeDim, Dimension.mk.injEq]
    exact ⟨wrap8_eq hL.1 hL.2, wrap8_eq hM.1 hM.2, wrap8_eq hT.1 hT.2,
      wrap8_eq hI.1 hI.2, wrap8_eq hΘ.1 hΘ.2, wrap8_eq hN.1 hN.2,
      wrap8_eq hJ.1 hJ.2⟩
  · rintro ⟨hL, hM, hT, hI, hΘ, hN, hJ⟩
    simp only [Value.Divide, decomposeDim, Dimension.mk.injEq]
    exact ⟨wrap8_eq hL.1 hL.2, wrap8_eq hM.1 hM.2, wrap8_eq hT.1 hT.2,
      wrap8_eq hI.1 hI.2, wrap8_eq hΘ.1 hΘ.2, wrap8_eq hN.1 hN.2,
      wrap8_eq hJ.1 hJ.2⟩

/-- Witness for C2 at concrete inputs: 5 m times 3 kg composes dimensions,
    10 m divided by 2 s decomposes them. -/
theorem claim_C2_witness :
    (Value.Multiply ⟨5, ⟨1, 0, 0, 0, 0, 0, 0⟩⟩ ⟨3, ⟨0, 1, 0, 0, 0, 0, 0⟩⟩).dim =
      composeDim ⟨1, 0, 0, 0, 0, 0, 0⟩ ⟨0, 1, 0, 0, 0, 0, 0⟩ ∧
    (Value.Divide ⟨10, ⟨1, 0, 0, 0, 0, 0, 0⟩⟩ ⟨2, ⟨0, 0, 1, 0, 0, 0, 0⟩⟩).dim =
      decomposeDim ⟨1, 0, 0, 0, 0, 0, 0⟩ ⟨0, 0, 1, 0, 0, 0, 0⟩ :=
  ⟨(claim_C2_multiply_divide _ _).2.2.2.2.1 (by decide),
   (claim_C2_multiply_divide _ _).2.2.2.2.2 (by decide)⟩

/-- C3. Value.Sqrt errors exactly when at least one of the seven exponents of
    the Dimension is odd — the condition never looks at the magnitude, so
    the sign of the magnitude is not inspected; otherwise it returns the
    square root of the magnitude with every exponent exactly halved. -/
theorem claim_C3_sqrt (v : Value) :
    ((∃ e, Value.Sqrt v = .error e) ↔ v.dim.hasOddExponent) ∧
    (¬ v.dim.hasOddExponent →
      ∃ w, Value.Sqrt v = .ok w ∧ w.value = ratSqrt v.value ∧
        w.dim.L + w.dim.L = v.dim.L ∧ w.dim.M + w.dim.M = v.dim.M ∧
        w.dim.T + w.dim.T = v.dim.T ∧ w.dim.I + w.dim.I = v.dim.I ∧
        w.dim.Θ + w.dim.Θ = v.dim.Θ ∧ w.dim.N + w.dim.N = v.dim.N ∧
        w.dim.J + w.dim.J = v.dim.J) := by
  have hiff : (v.dim.L.tmod 2 ≠ 0 ∨ v.dim.M.tmod 2 ≠ 0 ∨ v.dim.T.tmod 2 ≠ 0 ∨
      v.dim.I.tmod 2 ≠ 0 ∨ v.dim.Θ.tmod 2 ≠ 0 ∨ v.dim.N.tmod 2 ≠ 0 ∨
      v.dim.J.tmod 2 ≠ 0) ↔ v.dim.hasOddExponent := by
    unfold Dimension.hasOddExponent
    have h := not_odd_iff_tmod
    constructor
    · rintro (h1 | h1 | h1 | h1 | h1 | h1 | h1)
      · exact Or.inl (by by_contra hc; exact h1 ((h _).mp hc))
      · exact Or.inr (Or.inl (by by_contra hc; exact h1 ((h _).mp hc)))
      · exact Or.inr (Or.inr (Or.inl (by by_contra hc; exact h1 ((h _).mp hc))))
      · exact Or.inr (Or.inr (Or.inr (Or.inl
          (by by_contra hc; exact h1 ((h _).mp hc)))))
      · exact Or.inr (Or.inr (Or.inr (Or.inr (Or.inl
          (by by_contra hc; exact h1 ((h _).mp hc))))))
      · exact Or.inr (Or.inr (Or.inr (Or.inr (Or.inr (Or.inl
          (by by_contra hc; exact h1 ((h _).mp hc)))))))
      · exact Or.inr (Or.inr (Or.inr (Or.inr (Or.inr (Or.inr
          (by by_contra hc; exact h1 ((h _).mp hc)))))))
    · rintro (h1 | h1 | h1 | h1 | h1 | h1 | h1)
      · exact Or.inl (fun hc => ((h _).mpr hc) h1)
      · exact Or.inr (Or.inl (fun hc => ((h _).mpr hc) h1))
      · exact Or.inr (Or.inr (Or.inl (fun hc => ((h _).mpr hc) h1)))
      · exact Or.inr (Or.inr (Or.inr (Or.inl (fun hc => ((h _).mpr hc) h1))))
      · exact Or.inr (Or.inr (Or.inr (Or.inr (Or.inl
          (fun hc => ((h _).mpr hc) h1)))))
      · exact Or.inr (Or.inr (Or.inr (Or.inr (Or.inr (Or.inl
          (fun hc => ((h _).mpr hc) h1))))))
      · exact Or.inr (Or.inr (Or.inr (Or.inr (Or.inr (Or.inr
          (fun hc => ((h _).mpr hc) h1))))))
  constructor
  · constructor
    · rintro ⟨e, he⟩
      unfold Value.Sqrt at he
      split at he
      · next hc => exact hiff.mp hc
      · exact absurd he (by simp)
    · intro hodd
      unfold Value.Sqrt
      rw [if_pos (hiff.mpr hodd)]
      exact ⟨_, rfl⟩
  · intro hnot
    have hc := fun hcond => hnot (hiff.mp hcond)
    unfold Value.Sqrt
    rw [if_neg hc]
    unfold Dimension.hasOddExponent at hnot
    push_neg at hnot
    obtain ⟨n1, n2, n3, n4, n5, n6, n7⟩ := hnot
    exact ⟨_, rfl, rfl, tdiv_double n1, tdiv_double n2, tdiv_double n3,
      tdiv_double n4, tdiv_double n5, tdiv_double n6, tdiv_double n7⟩

/-- Witness for C3 at concrete inputs: sqrt of 25 with dimension L^2 succeeds
    and halves the exponent; sqrt of a value with dimension L^1 fails. -/
theorem claim_C3_witness :
    (∃ w, Value.Sqrt ⟨25, ⟨2, 0, 0, 0, 0, 0, 0⟩⟩ = .ok w ∧
      w.value = ratSqrt 25 ∧
      w.dim.L + w.dim.L = (2 : Int) ∧ w.dim.M + w.dim.M = (0 : Int) ∧
      w.dim.T + w.dim.T = (0 : Int) ∧ w.dim.I + w.dim.I = (0 : Int) ∧
      w.dim.Θ + w.dim.Θ = (0 : Int) ∧ w.dim.N + w.dim.N = (0 : Int) ∧
      w.dim.J + w.dim.J = (0 : Int)) ∧
    (∃ e, Value.Sqrt ⟨5, ⟨1, 0, 0, 0, 0, 0, 0⟩⟩ = .error e) :=
  ⟨(claim_C3_sqrt ⟨25, ⟨2, 0, 0, 0, 0, 0, 0⟩⟩).2 (by decide),
   (claim_C3_sqrt ⟨5, ⟨1, 0, 0, 0, 0, 0, 0⟩⟩).1.mpr (by decide)⟩

/-- C4 counterexample: with equal dimensions, magnitudes 2/10^20 and 1/10^20
    (both nonzero, relative error 1/3, far above the 1e-14 tolerance) are
    accepted by Value.Equal through the absolute-difference branch of
    almostEqual, while the claim's predicate — which applies the absolute
    tolerance only when some magnitude is exactly zero — is false there. -/
theorem claim_C4_counterexample :
    Value.Equal ⟨2 / 10 ^ 20, dimZero⟩ ⟨1 / 10 ^ 20, dimZero⟩ = true ∧
    ¬ claimEqualPred ⟨2 / 10 ^ 20, dimZero⟩ ⟨1 / 10 ^ 20, dimZero⟩ := by
  have habs : |(2 : ℚ) / 10 ^ 20 - 1 / 10 ^ 20| = 1 / 10 ^ 20 := by
    rw [abs_of_nonneg (by norm_num)]; norm_num
  constructor
  · unfold Value.Equal almostEqual
    simp only [Bool.and_eq_true, decide_eq_true_eq]
    refine ⟨by trivial, ?_⟩
    rw [if_neg (by norm_num)]
    rw [if_pos (Or.inr (Or.inr (by rw [habs]; unfold eqTolerance; norm_num)))]
    simp only [decide_eq_true_eq]
    rw [habs]; unfold eqTolerance; norm_num
  · rintro ⟨hdim, h | ⟨h1, h2, hrel⟩ | ⟨hz, hd⟩⟩
    · norm_num at h
    · rw [habs, abs_of_nonneg (by norm_num : (0:ℚ) ≤ 2 / 10 ^ 20),
        abs_of_nonneg (by norm_num : (0:ℚ) ≤ 1 / 10 ^ 20)] at hrel
      unfold eqTolerance at hrel
      norm_num at hrel
    · norm_num at hz

/-- C4 as amended. Value.Equal returns false when the Dimensions differ;
    when they are equal it returns true exactly when the magnitudes are
    equal, or the absolute difference is below the 1e-14 tolerance
    (this absolute check applies regardless of whether either magnitude is
    zero), or neither magnitude is zero and the relative error
    |a-b| / (|a|+|b|) is below the tolerance. -/
theorem claim_C4_equal_amended (a b : Value) :
    Value.Equal a b = true ↔
      (a.dim = b.dim ∧
        (a.value = b.value ∨ |a.value - b.value| < eqTolerance ∨
         (a.value ≠ 0 ∧ b.value ≠ 0 ∧
            |a.value - b.value| / (|a.value| + |b.value|) < eqTolerance))) := by
  unfold Value.Equal almostEqual
  simp only [Bool.and_eq_true, decide_eq_true_eq]
  by_cases hd : a.dim = b.dim
  · simp only [hd, true_and]
    by_cases hv : a.value = b.value
    · simp [hv]
    · rw [if_neg hv]
      by_cases hz : a.value = 0 ∨ b.value = 0 ∨ |a.value - b.value| < eqTolerance
      · rw [if_pos hz]
        simp only [decide_eq_true_eq]
        constructor
        · intro h1; exact Or.inr (Or.inl h1)
        · rintro (h1 | h1 | ⟨h1, h2, h3⟩)
          · exact absurd h1 hv
          · exact h1
          · rcases hz with hz | hz | hz
            · exact absurd hz h1
            · exact absurd hz h2
            · exact hz
      · rw [if_neg hz]
        push_neg at hz
        obtain ⟨h1, h2, h3⟩ := hz
        simp only [decide_eq_true_eq]
        constructor
        · intro h4; exact Or.inr (Or.inr ⟨h1, h2, h4⟩)
        · rintro (h4 | h4 | ⟨_, _, h4⟩)
          · exact absurd h4 hv
          · exact absurd h4 (not_lt.mpr h3)
          · exact h4
  · simp [hd]

lemma dot_self_eval (x y z : ℚ) (d : Dimension) :
    Vector3.Dot ⟨⟨x, d⟩, ⟨y, d⟩, ⟨z, d⟩⟩ ⟨⟨x, d⟩, ⟨y, d⟩, ⟨z, d⟩⟩ =
      ⟨x * x + y * y + z * z,
       ⟨wrap8 (d.L + d.L), wrap8 (d.M + d.M), wrap8 (d.T + d.T), wrap8 (d.I + d.I),
        wrap8 (d.Θ + d.Θ), wrap8 (d.N + d.N), wrap8 (d.J + d.J)⟩⟩ := by
  simp [Vector3.Dot, Value.Multiply, Value.Add, orZero, add_assoc]

lemma magnitude_eval (x y z : ℚ) (d : Dimension) :
    Vector3.Magnitude ⟨⟨x, d⟩, ⟨y, d⟩, ⟨z, d⟩⟩ =
      .ok ⟨ratSqrt (x * x + y * y + z * z),
           ⟨(wrap8 (d.L + d.L)).tdiv 2, (wrap8 (d.M + d.M)).tdiv 2,
            (wrap8 (d.T + d.T)).tdiv 2, (wrap8 (d.I + d.I)).tdiv 2,
            (wrap8 (d.Θ + d.Θ)).tdiv 2, (wrap8 (d.N + d.N)).tdiv 2,
            (wrap8 (d.J + d.J)).tdiv 2⟩⟩ := by
  rw [Vector3.Magnitude, Vector3.MagnitudeSquared, dot_self_eval]
  unfold Value.Sqrt
  rw [if_neg]
  push_neg
  exact ⟨wrap8_double_tmod d.L, wrap8_double_tmod d.M, wrap8_double_tmod d.T,
    wrap8_double_tmod d.I, wrap8_double_tmod d.Θ, wrap8_double_tmod d.N,
    wrap8_double_tmod d.J⟩

/-- C5. For every Vector3 whose three components carry one identical
    Dimension, Vector3.Magnitude never returns an error: each exponent of
    Dot(v, v)'s Dimension is a doubled exponent (int8 wrapping preserves
    parity), hence even, so Sqrt's odd-exponent branch is unreachable. -/
theorem claim_C5_magnitude_total (v : Vector3) (h : sharedDim v) :
    ∃ w, Vector3.Magnitude v = .ok w := by
  obtain ⟨⟨xv, xd⟩, ⟨yv, yd⟩, ⟨zv, zd⟩⟩ := v
  obtain ⟨h1, h2⟩ := h
  dsimp only at h1 h2
  subst h1; subst h2
  exact ⟨_, magnitude_eval xv yv zv xd⟩

/-- Witness for C5: the magnitude of the position vector (3, 4, 0) m is
    defined. -/
theorem claim_C5_witness : ∃ w, Vector3.Magnitude vec345 = .ok w :=
  claim_C5_magnitude_total vec345 ⟨rfl, rfl⟩

lemma ratSqrt_25 : ratSqrt (25 : ℚ) = 5 := by
  have hs : Nat.sqrt (Int.toNat (25 : ℚ).num) = 5 := by
    rw [show Int.toNat (25 : ℚ).num = 5 * 5 by rw [Rat.num_ofNat]; rfl, Nat.sqrt_eq]
  unfold ratSqrt
  rw [if_pos]
  · rw [hs, Rat.den_ofNat, Nat.sqrt_one]
    norm_num
  · refine ⟨by norm_num, ?_, ?_⟩
    · rw [hs, Rat.num_ofNat]; norm_num
    · rw [Rat.den_ofNat, Nat.sqrt_one]

lemma normalize_eval (x y z m : ℚ) (d : Dimension)
    (hm : ratSqrt (x * x + y * y + z * z) = m) (hmz : m ≠ 0) :
    Vector3.Normalize ⟨⟨x, d⟩, ⟨y, d⟩, ⟨z, d⟩⟩ =
      .ok ⟨⟨x / m, ⟨wrap8 (d.L - (wrap8 (d.L + d.L)).tdiv 2),
                    wrap8 (d.M - (wrap8 (d.M + d.M)).tdiv 2),
                    wrap8 (d.T - (wrap8 (d.T + d.T)).tdiv 2),
                    wrap8 (d.I - (wrap8 (d.I + d.I)).tdiv 2),
                    wrap8 (d.Θ - (wrap8 (d.Θ + d.Θ)).tdiv 2),
                    wrap8 (d.N - (wrap8 (d.N + d.N)).tdiv 2),
                    wrap8 (d.J - (wrap8 (d.J + d.J)).tdiv 2)⟩⟩,
           ⟨y / m, ⟨wrap8 (d.L - (wrap8 (d.L + d.L)).tdiv 2),
                    wrap8 (d.M - (wrap8 (d.M + d.M)).tdiv 2),
                    wrap8 (d.T - (wrap8 (d.T + d.T)).tdiv 2),
                    wrap8 (d.I - (wrap8 (d.I + d.I)).tdiv 2),
                    wrap8 (d.Θ - (wrap8 (d.Θ + d.Θ)).tdiv 2),
                    wrap8 (d.N - (wrap8 (d.N + d.N)).tdiv 2),
                    wrap8 (d.J - (wrap8 (d.J + d.J)).tdiv 2)⟩⟩,
           ⟨z / m, ⟨wrap8 (d.L - (wrap8 (d.L + d.L)).tdiv 2),
                    wrap8 (d.M - (wrap8 (d.M + d.M)).tdiv 2),
                    wrap8 (d.T - (wrap8 (d.T + d.T)).tdiv 2),
                    wrap8 (d.I - (wrap8 (d.I + d.I)).tdiv 2),
                    wrap8 (d.Θ - (wrap8 (d.Θ + d.Θ)).tdiv 2),
                    wrap8 (d.N - (wrap8 (d.N + d.N)).tdiv 2),
                    wrap8 (d.J - (wrap8 (d.J + d.J)).tdiv 2)⟩⟩⟩ := by
  unfold Vector3.Normalize
  rw [magnitude_eval]
  dsimp only
  rw [hm, if_neg hmz]
  rfl

/-- C6 counterexample: the vector (3, 4, 0) with shared Dimension exponent
    L = 100 normalizes successfully (magnitude raw scalar 5 is nonzero), yet
    the components of the result carry Dimension L = -128 — not the all-zero
    Dimension the claim promises — because doubling then halving then
    cancelling the exponent wraps in int8. -/
theorem claim_C6_counterexample :
    Vector3.Normalize ⟨⟨3, ⟨100, 0, 0, 0, 0, 0, 0⟩⟩, ⟨4, ⟨100, 0, 0, 0, 0, 0, 0⟩⟩,
        ⟨0, ⟨100, 0, 0, 0, 0, 0, 0⟩⟩⟩ =
      .ok ⟨⟨3 / 5, ⟨-128, 0, 0, 0, 0, 0, 0⟩⟩, ⟨4 / 5, ⟨-128, 0, 0, 0, 0, 0, 0⟩⟩,
           ⟨0 / 5, ⟨-128, 0, 0, 0, 0, 0, 0⟩⟩⟩ ∧
    (⟨-128, 0, 0, 0, 0, 0, 0⟩ : Dimension) ≠ dimZero := by
  constructor
  · have h := normalize_eval 3 4 0 5 ⟨100, 0, 0, 0, 0, 0, 0⟩
      (by rw [show (3 * 3 + 4 * 4 + 0 * 0 : ℚ) = 25 by norm_num]; exact ratSqrt_25)
      (by norm_num)
    rw [h]
    simp only [Except.ok.injEq, Vector3.mk.injEq, Value.mk.injEq]
    exact ⟨⟨by trivial, by decide⟩, ⟨by trivial, by decide⟩, ⟨by trivial, by decide⟩⟩
  · decide

lemma halv_exp_cancel {e : Int} (h1 : -64 ≤ e) (h2 : e ≤ 63) :
    wrap8 (e - (wrap8 (e + e)).tdiv 2) = 0 := by
  have h3 : wrap8 (e + e) = e + e := wrap8_eq (by omega) (by omega)
  rw [h3, double_tdiv, sub_self]
  decide

/-- C6 as amended. For every Vector3 whose components share one Dimension,
    the Magnitude is defined, Normalize errors exactly when the magnitude's
    raw scalar is exactly zero, and on success every component is the
    original component divided (Value.Divide) by the magnitude Value; when
    additionally every exponent of the shared Dimension lies in [-64, 63]
    (so no int8 wrap occurs), the resulting components are dimensionless. -/
theorem claim_C6_normalize_amended (v : Vector3) (h : sharedDim v) :
    (∃ mag, Vector3.Magnitude v = .ok mag) ∧
    (∀ mag, Vector3.Magnitude v = .ok mag →
      ((∃ e, Vector3.Normalize v = .error e) ↔ mag.value = 0) ∧
      (mag.value ≠ 0 →
        Vector3.Normalize v = .ok ⟨v.X.Divide mag, v.Y.Divide mag, v.Z.Divide mag⟩) ∧
      (mag.value ≠ 0 → v.X.dim.Halvable →
        ∀ w, Vector3.Normalize v = .ok w →
          w.X.dim = dimZero ∧ w.Y.dim = dimZero ∧ w.Z.dim = dimZero)) := by
  obtain ⟨⟨xv, xd⟩, ⟨yv, yd⟩, ⟨zv, zd⟩⟩ := v
  obtain ⟨h1, h2⟩ := h
  dsimp only at h1 h2
  subst h1; subst h2
  refine ⟨⟨_, magnitude_eval xv yv zv xd⟩, ?_⟩
  intro mag hmag
  rw [magnitude_eval] at hmag
  injection hmag with hmag
  subst hmag
  by_cases hz : ratSqrt (xv * xv + yv * yv + zv * zv) = 0
  · refine ⟨⟨fun _ => hz, fun _ => ?_⟩, fun hnz => absurd hz hnz,
      fun hnz => absurd hz hnz⟩
    refine ⟨"cannot normalize zero vector", ?_⟩
    unfold Vector3.Normalize
    rw [magnitude_eval]
    dsimp only
    rw [if_pos hz]
  · have hok := normalize_eval xv yv zv _ xd rfl hz
    refine ⟨⟨?_, fun h0 => absurd h0 hz⟩, ?_, ?_⟩
    · rintro ⟨e, he⟩
      rw [hok] at he
      exact absurd he (by simp)
    · intro _
      rw [hok]
      rfl
    · intro _ hhalv w hw
      rw [hok] at hw
      injection hw with hw
      subst hw
      obtain ⟨b1, b2, b3, b4, b5, b6, b7⟩ := hhalv
      refine ⟨?_, ?_, ?_⟩ <;>
      · simp only [dimZero, Dimension.mk.injEq]
        exact ⟨halv_exp_cancel b1.1 b1.2, halv_exp_cancel b2.1 b2.2,
          halv_exp_cancel b3.1 b3.2, halv_exp_cancel b4.1 b4.2,
          halv_exp_cancel b5.1 b5.2, halv_exp_cancel b6.1 b6.2,
          halv_exp_cancel b7.1 b7.2⟩

/-- Witness for C6: normalizing the position vector (3, 4, 0) m divides each
    component by the 5 m magnitude. -/
theorem claim_C6_witness :
    Vector3.Normalize vec345 =
      .ok ⟨Value.Divide ⟨3, dimLen⟩ ⟨5, dimLen⟩, Value.Divide ⟨4, dimLen⟩ ⟨5, dimLen⟩,
           Value.Divide ⟨0, dimLen⟩ ⟨5, dimLen⟩⟩ := by
  have hmag : Vector3.Magnitude vec345 = .ok ⟨5, dimLen⟩ := by
    show Vector3.Magnitude ⟨⟨3, dimLen⟩, ⟨4, dimLen⟩, ⟨0, dimLen⟩⟩ = _
    rw [magnitude_eval]
    simp only [Except.ok.injEq, Value.mk.injEq]
    constructor
    · rw [show (3 * 3 + 4 * 4 + 0 * 0 : ℚ) = 25 by norm_num]
      exact ratSqrt_25
    · decide
  exact ((claim_C6_normalize_amended vec345 ⟨rfl, rfl⟩).2 ⟨5, dimLen⟩ hmag).2.1
    (by norm_num)

lemma add_ok_dims {a b c : Value} (h : Value.Add a b = .ok c) : c.dim = a.dim := by
  unfold Value.Add at h
  split at h
  · exact absurd h (by simp)
  · injection h with h
    subst h
    rfl

lemma sub_ok_dims {a b c : Value} (h : Value.Subtract a b = .ok c) : c.dim = a.dim := by
  unfold Value.Subtract at h
  split at h
  · exact absurd h (by simp)
  · injection h with h
    subst h
    rfl

/-- C7. Well-formedness (all three components sharing one Dimension) is an
    invariant: for well-formed inputs, every Vector3-producing operation
    (Add, Subtract, Scale, Negate, Cross, Normalize, ProjectOnto) returns a
    well-formed Vector3 whenever it returns without error, and the
    constructors New (on success), Zero, UnitX, UnitY and UnitZ also
    establish the property. -/
theorem claim_C7_wellformed (u v : Vector3) (x y z : Value) (d : Dimension) (k : ℚ)
    (hu : sharedDim u) (hv : sharedDim v) :
    (∀ w, Vector3.Add u v = .ok w → sharedDim w) ∧
    (∀ w, Vector3.Subtract u v = .ok w → sharedDim w) ∧
    sharedDim (Vector3.Scale u k) ∧
    sharedDim (Vector3.Negate u) ∧
    sharedDim (Vector3.Cross u v) ∧
    (∀ w, Vector3.Normalize u = .ok w → sharedDim w) ∧
    (∀ w, Vector3.ProjectOnto u v = .ok w → sharedDim w) ∧
    (∀ w, New x y z = .ok w → sharedDim w) ∧
    sharedDim (Zero d) ∧ sharedDim (UnitX d) ∧ sharedDim (UnitY d) ∧
    sharedDim (UnitZ d) := by
  obtain ⟨⟨ux, ud⟩, ⟨uy, ud2⟩, ⟨uz, ud3⟩⟩ := u
  obtain ⟨⟨vx, vd⟩, ⟨vy, vd2⟩, ⟨vz, vd3⟩⟩ := v
  obtain ⟨hu1, hu2⟩ := hu
  obtain ⟨hv1, hv2⟩ := hv
  dsimp only at hu1 hu2 hv1 hv2
  subst hu1; subst hu2; subst hv1; subst hv2
  refine ⟨?_, ?_, ⟨rfl, rfl⟩, ⟨rfl, rfl⟩, ?_, ?_, ?_, ?_,
    ⟨rfl, rfl⟩, ⟨rfl, rfl⟩, ⟨rfl, rfl⟩, ⟨rfl, rfl⟩⟩
  · intro w hw
    unfold Vector3.Add at hw
    rcases h1 : Value.Add ⟨ux, ud⟩ ⟨vx, vd⟩ with e | xr
    · rw [h1] at hw; simp at hw
    rw [h1] at hw
    rcases h2 : Value.Add ⟨uy, ud⟩ ⟨vy, vd⟩ with e | yr
    · rw [h2] at hw; simp at hw
    rw [h2] at hw
    rcases h3 : Value.Add ⟨uz, ud⟩ ⟨vz, vd⟩ with e | zr
    · rw [h3] at hw; simp at hw
    rw [h3] at hw
    simp only [Except.ok.injEq] at hw
    subst hw
    exact ⟨by rw [add_ok_dims h2, add_ok_dims h1], by rw [add_ok_dims h3, add_ok_dims h1]⟩
  · intro w hw
    unfold Vector3.Subtract at hw
    rcases h1 : Value.Subtract ⟨ux, ud⟩ ⟨vx, vd⟩ with e | xr
    · rw [h1] at hw; simp at hw
    rw [h1] at hw
    rcases h2 : Value.Subtract ⟨uy, ud⟩ ⟨vy, vd⟩ with e | yr
    · rw [h2] at hw; simp at hw
    rw [h2] at hw
    rcases h3 : Value.Subtract ⟨uz, ud⟩ ⟨vz, vd⟩ with e | zr
    · rw [h3] at hw; simp at hw
    rw [h3] at hw
    simp only [Except.ok.injEq] at hw
    subst hw
    exact ⟨by rw [sub_ok_dims h2, sub_ok_dims h1], by rw [sub_ok_dims h3, sub_ok_dims h1]⟩
  · simp [Vector3.Cross, Value.Multiply, Value.Subtract, orZero, sharedDim]
  · intro w hw
    unfold Vector3.Normalize at hw
    rw [magnitude_eval] at hw
    dsimp only at hw
    split at hw
    · exact absurd hw (by simp)
    · simp only [Except.ok.injEq] at hw
      subst hw
      exact ⟨rfl, rfl⟩
  · intro w hw
    unfold Vector3.ProjectOnto at hw
    dsimp only at hw
    split at hw
    · exact absurd hw (by simp)
    · simp only [Except.ok.injEq] at hw
      subst hw
      exact ⟨rfl, rfl⟩
  · intro w hw
    unfold New at hw
    split at hw
    · exact absurd hw (by simp)
    · rename_i hc
      push_neg at hc
      simp only [Except.ok.injEq] at hw
      subst hw
      exact ⟨hc.1, hc.2⟩

/-- Witness for C7 at concrete inputs. -/
theorem claim_C7_witness :
    sharedDim (Vector3.Cross vec123 vec345) ∧ sharedDim (Zero dimLen) := by
  have h := claim_C7_wellformed vec123 vec345 ⟨1, dimZero⟩ ⟨2, dimZero⟩ ⟨3, dimZero⟩
    dimLen 2 ⟨rfl, rfl⟩ ⟨rfl, rfl⟩
  exact ⟨h.2.2.2.2.1, h.2.2.2.2.2.2.2.2.1⟩

/-- C8. Cross product is anticommutative: for Vector3 values u and v whose
    components each share one Dimension, Cross(u, v) equals
    Negate(Cross(v, u)) component by component — equal magnitudes and equal
    Dimensions. -/
theorem claim_C8_cross_anticomm (u v : Vector3) (hu : sharedDim u)
    (hv : sharedDim v) :
    Vector3.Cross u v = Vector3.Negate (Vector3.Cross v u) := by
  obtain ⟨⟨ux, ud⟩, ⟨uy, ud2⟩, ⟨uz, ud3⟩⟩ := u
  obtain ⟨⟨vx, vd⟩, ⟨vy, vd2⟩, ⟨vz, vd3⟩⟩ := v
  obtain ⟨hu1, hu2⟩ := hu
  obtain ⟨hv1, hv2⟩ := hv
  dsimp only at hu1 hu2 hv1 hv2
  subst hu1; subst hu2; subst hv1; subst hv2
  simp [Vector3.Cross, Vector3.Negate, Value.Multiply, Value.Subtract,
    Value.Negate, orZero, Vector3.mk.injEq, Value.mk.injEq, Dimension.mk.injEq]
  refine ⟨⟨by ring, ?_⟩, ⟨by ring, ?_⟩, by ring, ?_⟩ <;>
    · simp only [wrap8]
      omega

/-- Witness for C8 at the concrete vectors (1,2,3) m and (3,4,0) m. -/
theorem claim_C8_witness :
    Vector3.Cross vec123 vec345 = Vector3.Negate (Vector3.Cross vec345 vec123) :=
  claim_C8_cross_anticomm vec123 vec345 ⟨rfl, rfl⟩ ⟨rfl, rfl⟩

/-- C9 (code bug): evaluating UnitZ at the length Dimension yields the
    vector (0, 1, 0) — Y component 1, Z component 0 — contradicting the
    claim and UnitZ's own documentation ("a unit vector in the Z
    direction"). -/
theorem claim_C9_unitZ_eval :
    UnitZ dimLen = ⟨⟨0, dimLen⟩, ⟨1, dimLen⟩, ⟨0, dimLen⟩⟩ ∧
    (UnitZ dimLen).Z.value = 0 ∧ (UnitZ dimLen).Y.value = 1 :=
  ⟨rfl, rfl, rfl⟩

lemma foldl_sep_shift (l : List String) (s : String) (n : Nat) :
    (l.foldl
      (fun acc p => ((if acc.2 > 0 then acc.1 ++ " " else acc.1) ++ p, acc.2 + 1))
      (s, n + 1)).1 =
    l.foldl (fun a p => a ++ " " ++ p) s := by
  induction l generalizing s n with
  | nil => rfl
  | cons p t ih =>
    simp only [List.foldl]
    rw [if_pos (Nat.succ_pos n)]
    exact ih (s ++ " " ++ p) (n + 1)

lemma foldl_space_sepSpace (t : List String) (p s : String) :
    t.foldl (fun a q => a ++ " " ++ q) (s ++ p) = s ++ sepSpace (p :: t) := by
  induction t generalizing p s with
  | nil => simp [sepSpace]
  | cons q r ih =>
    simp only [List.foldl, sepSpace]
    have h1 : s ++ p ++ " " ++ q = (s ++ (p ++ " ")) ++ q := by
      simp [String.append_assoc]
    rw [h1, ih q (s ++ (p ++ " "))]
    simp [sepSpace, String.append_assoc]

lemma goJoin_eq (parts : List String) :
    (parts.foldl
      (fun acc p => ((if acc.2 > 0 then acc.1 ++ " " else acc.1) ++ p, acc.2 + 1))
      ("[", (0 : Nat))).1 ++ "]" = "[" ++ sepSpace parts ++ "]" := by
  cases parts with
  | nil => rfl
  | cons p t =>
    simp only [List.foldl]
    rw [if_neg (by decide)]
    rw [foldl_sep_shift t ("[" ++ p) 0]
    rw [foldl_space_sepSpace t p "["]

lemma buildParts_go (pairs : List (String × Int)) (acc : List String) :
    pairs.foldl
      (fun parts p => appendIf (p.2 ≠ 0) (p.1 ++ "^" ++ toString p.2) parts)
      acc =
    acc ++ pairs.filterMap
      (fun p => if p.2 ≠ 0 then some (p.1 ++ "^" ++ toString p.2) else none) := by
  induction pairs generalizing acc with
  | nil => simp
  | cons p t ih =>
    simp only [List.foldl, List.filterMap_cons]
    rw [ih]
    by_cases h : p.2 ≠ 0
    · simp [appendIf, h]
    · simp [appendIf, h]

/-- C10. For every Dimension, the textual rendering equals the spec-side
    rendering: only the non-zero exponents, each as a SYMBOL^exponent token
    in the fixed order L, M, T, I, Θ, N, J, space-separated and enclosed in
    square brackets; the all-zero Dimension renders exactly as "[1]". -/
theorem claim_C10_render_spec (d : Dimension) :
    d.render = d.renderSpec ∧ Dimension.render dimZero = "[1]" := by
  refine ⟨?_, rfl⟩
  unfold Dimension.render Dimension.renderSpec
  split_ifs with h
  · rfl
  · show (([("L", d.L), ("M", d.M), ("T", d.T), ("I", d.I), ("Θ", d.Θ), ("N", d.N),
        ("J", d.J)].foldl
        (fun parts p => appendIf (p.2 ≠ 0) (p.1 ++ "^" ++ toString p.2) parts)
        ([] : List String)).foldl
        (fun acc p => ((if acc.2 > 0 then acc.1 ++ " " else acc.1) ++ p, acc.2 + 1))
        ("[", (0 : Nat))).1 ++ "]" = "[" ++ sepSpace d.specTokens ++ "]"
    rw [buildParts_go]
    exact goJoin_eq d.specTokens

end QsimCore
